import Mathlib

/-!
A shallow embedding of the notes service in `src/solution/index.js`.

The persisted store (`notes.json`) is modelled as `Option (List Note)`:
`none` means the file does not exist yet, `some c` means the file holds
the collection `c`.  Each route handler becomes a function from the store
state (plus its request inputs) to a result paired with the new store
state.  JavaScript strings are modelled as Lean `String` (the code only
manipulates them with `trim`, `toLowerCase`, `includes` and `length`,
which agree with the Lean counterparts on the ASCII inputs of interest).
JavaScript numbers arising from `parseInt` are modelled as `Option Int`,
where `none` stands for a value that is not a finite integer (`NaN`, and
`Infinity` in the unreachable division-by-zero corner of `Math.ceil`).
-/

namespace NotesApi

/-- A note record, with the fields used by `src/solution/index.js`. -/
structure Note where
  id : String
  title : String
  content : String
  createdAt : String
  deleted : Bool
deriving Repr, DecidableEq

/-- JavaScript `c.toLowerCase()` for a single character (ASCII range, the
only case the repository's data exercises). -/
def jsToLowerChar (c : Char) : Char :=
  if 'A' ≤ c ∧ c ≤ 'Z' then Char.ofNat (c.toNat + 32) else c

/-- JavaScript `s.toLowerCase()`. -/
def jsToLower (s : String) : String :=
  ⟨s.data.map jsToLowerChar⟩

/-- JavaScript `s.trim()`: strip leading and trailing whitespace. -/
def jsTrim (s : String) : String :=
  ⟨(((s.data.dropWhile Char.isWhitespace).reverse).dropWhile Char.isWhitespace).reverse⟩

/-- Model of `readNotesFile` (`index.js` lines 14-26): returns the parsed collection
and the store state afterwards; when the file is missing (`ENOENT`) it
writes an empty collection and returns `[]`. -/
def readNotesFile : Option (List Note) → List Note × Option (List Note)
  | none => ([], some [])
  | some c => (c, some c)

/-- Model of `writeNotesFile` (lines 28-30): overwrites the file with the given
collection. -/
def writeNotesFile (notes : List Note) : Option (List Note) :=
  some notes

/-- Model of `validateNote` (lines 32-46).  The request-body fields `title` and
`content` are modelled as `Option String` (`none` = absent).  `!title`
is JavaScript truthiness: absent and `""` are both falsy. -/
def validateNote (title content : Option String) : List String :=
  let titleErrs :=
    match title with
    | none => ["Title is required and must be a non-empty string"]
    | some t =>
      if t = "" ∨ jsTrim t = "" then
        ["Title is required and must be a non-empty string"]
      else if t.length > 100 then
        ["Title must be 100 characters or less"]
      else []
  let contentErrs :=
    match content with
    | none => ["Content is required and must be a non-empty string"]
    | some c =>
      if c = "" ∨ jsTrim c = "" then
        ["Content is required and must be a non-empty string"]
      else []
  titleErrs ++ contentErrs

/-- Helper for `includes`: `isPrefOf sub l` holds when `sub` is a prefix of `l` (helper for `includes`). -/
def isPrefOf : List Char → List Char → Bool
  | [], _ => true
  | _ :: _, [] => false
  | a :: as, b :: bs => a == b && isPrefOf as bs

/-- Helper for `includes`: `containsSub sub l` holds when `sub` occurs contiguously inside `l`. -/
def containsSub (sub : List Char) : List Char → Bool
  | [] => isPrefOf sub []
  | c :: as => isPrefOf sub (c :: as) || containsSub sub as

/-- JavaScript `s.includes(sub)`. -/
def jsIncludes (s sub : String) : Bool :=
  containsSub sub.data s.data

/-- Value of a character as a digit in the given radix, as JavaScript
`parseInt` accepts it (`0-9`, `a-z`, `A-Z`). -/
def charDigit (radix : Nat) (c : Char) : Option Nat :=
  let v :=
    if '0' ≤ c ∧ c ≤ '9' then some (c.toNat - 48)
    else if 'a' ≤ c ∧ c ≤ 'z' then some (c.toNat - 87)
    else if 'A' ≤ c ∧ c ≤ 'Z' then some (c.toNat - 55)
    else none
  match v with
  | some d => if d < radix then some d else none
  | none => none

/-- Accumulate the longest digit prefix; `none` accumulator means no digit
has been consumed yet (so an immediate non-digit yields `NaN`). -/
def parseDigits (radix : Nat) : Option Nat → List Char → Option Nat
  | acc, [] => acc
  | acc, c :: cs =>
    match charDigit radix c with
    | some d => parseDigits radix (some ((acc.getD 0) * radix + d)) cs
    | none => acc

/-- JavaScript `parseInt(s)` with no radix argument: skip leading
whitespace, optional sign, optional `0x`/`0X` (radix 16), then the longest
digit prefix; `none` models `NaN`. -/
def jsParseInt (s : String) : Option Int :=
  let l := s.data.dropWhile Char.isWhitespace
  let signed : Bool × List Char :=
    match l with
    | '-' :: rest => (true, rest)
    | '+' :: rest => (false, rest)
    | _ => (false, l)
  let based : Nat × List Char :=
    match signed.2 with
    | '0' :: 'x' :: rest => (16, rest)
    | '0' :: 'X' :: rest => (16, rest)
    | _ => (10, signed.2)
  match parseDigits based.1 none based.2 with
  | none => none
  | some n => some (if signed.1 then -(n : Int) else (n : Int))

/-- Model of `const \x7b page = 1, ... \x7d = req.query` followed by `parseInt(page)`:
an absent parameter is defaulted (to the number `1` resp. `10`, which
`parseInt` stringifies) before parsing. -/
def parseParam (v : Option String) (dflt : Nat) : Option Int :=
  match v with
  | none => jsParseInt (Nat.repr dflt)
  | some s => jsParseInt s

/-- NaN-propagating addition on JavaScript numbers. -/
def jsAdd : Option Int → Option Int → Option Int
  | some a, some b => some (a + b)
  | _, _ => none

/-- NaN-propagating subtraction on JavaScript numbers. -/
def jsSub : Option Int → Option Int → Option Int
  | some a, some b => some (a - b)
  | _, _ => none

/-- NaN-propagating multiplication on JavaScript numbers (note that in
JavaScript `0 * NaN` is `NaN`, as here). -/
def jsMul : Option Int → Option Int → Option Int
  | some a, some b => some (a * b)
  | _, _ => none

/-- The `ToIntegerOrInfinity` conversion as used by `Array.prototype.slice`: `NaN`
becomes `0`. -/
def jsToIntOrZero : Option Int → Int
  | none => 0
  | some i => i

/-- Clamp a slice argument to `[0, len]` as `Array.prototype.slice` does:
negative indices count from the end. -/
def jsSliceBound (i : Int) (len : Nat) : Nat :=
  if i < 0 then ((len : Int) + i).toNat else min i.toNat len

/-- JavaScript `l.slice(start, stop)` on arrays, with possibly-NaN
indices. -/
def jsSlice (l : List Note) (start stop : Option Int) : List Note :=
  let s := jsSliceBound (jsToIntOrZero start) l.length
  let e := jsSliceBound (jsToIntOrZero stop) l.length
  (l.take e).drop s

/-- Lines 58-61: drop soft-deleted records unless `includeDeleted` is the
string `"true"` (its default is the string `"false"`). -/
def visibleFilter (includeDeleted : Option String) (notes : List Note) : List Note :=
  if includeDeleted.getD "false" ≠ "true" then
    notes.filter (fun n => !n.deleted)
  else notes

/-- Lines 63-70: `if (search)` is JavaScript truthiness, so an absent or
empty search leaves the list unchanged; otherwise keep records whose
lowercased title or content contains the lowercased term. -/
def searchFilter (search : Option String) (notes : List Note) : List Note :=
  match search with
  | none => notes
  | some s =>
    if s = "" then notes
    else
      notes.filter (fun n =>
        jsIncludes (jsToLower n.title) (jsToLower s) || jsIncludes (jsToLower n.content) (jsToLower s))

/-- JavaScript `Math.ceil(total / limitNum)` where `limitNum` may be `NaN`; `none`
also covers the non-finite results of dividing by zero. -/
def jsCeilDiv (total : Nat) (limit : Option Int) : Option Int :=
  match limit with
  | none => none
  | some l =>
    if 0 < l then some (((total + l.toNat - 1) / l.toNat : Nat) : Int)
    else if l < 0 then some (-((total / (-l).toNat : Nat) : Int))
    else none

/-- The response of `GET /notes` (lines 80-88). -/
structure ListResult where
  items : List Note
  page : Option Int
  limit : Option Int
  total : Nat
  totalPages : Option Int
deriving Repr, DecidableEq

/-- The pure part of the `GET /notes` handler (lines 51-93), applied to an
already-loaded collection. -/
def listNotesCore (notes : List Note) (page limit search includeDeleted : Option String) :
    ListResult :=
  let f1 := visibleFilter includeDeleted notes
  let f2 := searchFilter search f1
  let pageNum := parseParam page 1
  let limitNum := parseParam limit 10
  let startIndex := jsMul (jsSub pageNum (some 1)) limitNum
  let endIndex := jsAdd startIndex limitNum
  { items := jsSlice f2 startIndex endIndex
    page := pageNum
    limit := limitNum
    total := f2.length
    totalPages := jsCeilDiv f2.length limitNum }

/-- The handler of `GET /notes` (lines 51-93): load the collection, then filter, search
and paginate. -/
def listNotes (st : Option (List Note)) (page limit search includeDeleted : Option String) :
    ListResult × Option (List Note) :=
  let rd := readNotesFile st
  (listNotesCore rd.1 page limit search includeDeleted, rd.2)

/-- Outcome of `GET /notes/:id`. -/
inductive GetResult where
  | found (n : Note)
  | notFound
deriving Repr, DecidableEq

/-- The handler of `GET /notes/:id` (lines 96-114): `notes.find(n => n.id === id)`, then
404 when missing or soft-deleted. -/
def getNote (st : Option (List Note)) (noteId : String) : GetResult × Option (List Note) :=
  let rd := readNotesFile st
  match rd.1.find? (fun n => n.id == noteId) with
  | none => (.notFound, rd.2)
  | some n => if n.deleted then (.notFound, rd.2) else (.found n, rd.2)

/-- Outcome of `POST /notes`. -/
inductive CreateResult where
  | created (n : Note)
  | validationFailed (details : List String)
deriving Repr, DecidableEq

/-- The handler of `POST /notes` (lines 117-151).  The generated `uuidv4()` id and the
`new Date().toISOString()` timestamp are passed in as parameters `newId`
and `now`.  Validation runs before the store is touched. -/
def createNote (st : Option (List Note)) (title content : Option String)
    (newId now : String) : CreateResult × Option (List Note) :=
  let errs := validateNote title content
  if errs = [] then
    let newNote : Note :=
      { id := newId
        title := jsTrim (title.getD "")
        content := jsTrim (content.getD "")
        createdAt := now
        deleted := false }
    let rd := readNotesFile st
    (.created newNote, writeNotesFile (rd.1 ++ [newNote]))
  else
    (.validationFailed errs, st)

/-- The call `notes.findIndex(p)` fused with the subsequent `notes[noteIndex]`
access: the index of the first record satisfying `p`, with that record. -/
def findIndexed (p : Note → Bool) : List Note → Option (Nat × Note)
  | [] => none
  | n :: ns =>
    if p n then some (0, n)
    else (findIndexed p ns).map (fun x => (x.1 + 1, x.2))

/-- Outcome of `PUT /notes/:id`. -/
inductive UpdateResult where
  | updated (n : Note)
  | validationFailed (details : List String)
  | notFound
deriving Repr, DecidableEq

/-- The handler of `PUT /notes/:id` (lines 154-195): validate, load, locate by id, 404
when missing or soft-deleted, otherwise overwrite title/content (trimmed)
via object spread (preserving the other fields) and save. -/
def updateNote (st : Option (List Note)) (noteId : String)
    (title content : Option String) : UpdateResult × Option (List Note) :=
  let errs := validateNote title content
  if errs = [] then
    let rd := readNotesFile st
    match findIndexed (fun n => n.id == noteId) rd.1 with
    | none => (.notFound, rd.2)
    | some (i, old) =>
      if old.deleted then (.notFound, rd.2)
      else
        let upd := { old with
          title := jsTrim (title.getD "")
          content := jsTrim (content.getD "") }
        (.updated upd, writeNotesFile (rd.1.set i upd))
  else
    (.validationFailed errs, st)

/-- Outcome of `DELETE /notes/:id`. -/
inductive DeleteResult where
  | success
  | notFound
deriving Repr, DecidableEq

/-- The handler of `DELETE /notes/:id` (lines 198-225): load, locate by id, 404 when
missing or already soft-deleted, otherwise set `deleted = true` and
save. -/
def deleteNote (st : Option (List Note)) (noteId : String) :
    DeleteResult × Option (List Note) :=
  let rd := readNotesFile st
  match findIndexed (fun n => n.id == noteId) rd.1 with
  | none => (.notFound, rd.2)
  | some (i, old) =>
    if old.deleted then (.notFound, rd.2)
    else (.success, writeNotesFile (rd.1.set i { old with deleted := true }))

/-! ### Sample data used to exercise the theorems on concrete inputs -/

/-- A visible sample note with the given id. -/
def sampleNote (i : String) : Note :=
  { id := i, title := "title " ++ i, content := "content " ++ i
    createdAt := "2025-06-27T08:15:30.000Z", deleted := false }

/-- Seven visible notes, as in the spec's pagination example. -/
def sample7 : List Note :=
  [sampleNote "1", sampleNote "2", sampleNote "3", sampleNote "4",
   sampleNote "5", sampleNote "6", sampleNote "7"]

/-- The note from the spec's search example. -/
def projectPlanNote : Note :=
  { id := "a1b2c3d4", title := "Project Plan", content := "Define MVP and deadlines"
    createdAt := "2025-06-27T08:15:30.000Z", deleted := false }

/-! ### Helper lemmas -/

theorem isPrefOf_iff (sub l : List Char) :
    isPrefOf sub l = true ↔ ∃ q, l = sub ++ q := by
  induction sub generalizing l with
  | nil => simp [isPrefOf]
  | cons a as ih =>
    cases l with
    | nil => simp [isPrefOf]
    | cons b bs =>
      simp only [isPrefOf, Bool.and_eq_true, beq_iff_eq, ih, List.cons_append,
        List.cons.injEq]
      constructor
      · rintro ⟨rfl, q, rfl⟩
        exact ⟨q, rfl, rfl⟩
      · rintro ⟨q, rfl, rfl⟩
        exact ⟨rfl, q, rfl⟩

theorem containsSub_iff (sub l : List Char) :
    containsSub sub l = true ↔ ∃ p q, l = p ++ sub ++ q := by
  induction l with
  | nil =>
    simp only [containsSub, isPrefOf_iff]
    constructor
    · rintro ⟨q, hq⟩
      exact ⟨[], q, by simpa using hq⟩
    · rintro ⟨p, q, hpq⟩
      have h := hpq.symm
      simp only [List.append_eq_nil] at h
      exact ⟨[], by simp_all⟩
  | cons c as ih =>
    simp only [containsSub, Bool.or_eq_true, isPrefOf_iff, ih]
    constructor
    · rintro (⟨q, hq⟩ | ⟨p, q, hpq⟩)
      · exact ⟨[], q, by simpa using hq⟩
      · exact ⟨c :: p, q, by simp [hpq]⟩
    · rintro ⟨p, q, hpq⟩
      cases p with
      | nil => exact Or.inl ⟨q, by simpa using hpq⟩
      | cons x xs =>
        simp only [List.cons_append, List.cons.injEq] at hpq
        exact Or.inr ⟨xs, q, hpq.2⟩

theorem mem_of_getElem?_eq (l : List Note) (k : Nat) (n : Note)
    (h : l[k]? = some n) : n ∈ l := by
  rcases List.getElem?_eq_some.mp h with ⟨hlt, rfl⟩
  exact List.getElem_mem hlt

theorem jsSlice_nat (l : List Note) (a b : Nat) :
    jsSlice l (some (a : Int)) (some ((a : Int) + (b : Int))) = (l.drop a).take b := by
  have ha : ¬ ((a : Int) < 0) := by omega
  have hab : ¬ ((a : Int) + (b : Int) < 0) := by omega
  simp only [jsSlice, jsToIntOrZero, jsSliceBound, if_neg ha, if_neg hab]
  have hcast : ((a : Int) + (b : Int)).toNat = a + b := by omega
  rw [hcast, Int.toNat_ofNat]
  by_cases h1 : a ≤ l.length
  · rw [min_eq_left h1, List.drop_take]
    by_cases h2 : a + b ≤ l.length
    · rw [min_eq_left h2]
      congr 1
      omega
    · rw [min_eq_right (by omega)]
      rw [List.take_of_length_le (by simp only [List.length_drop]; omega),
        List.take_of_length_le (by simp only [List.length_drop]; omega)]
  · rw [min_eq_right (by omega),
      List.drop_eq_nil_of_le (by simp only [List.length_take]; omega),
      List.drop_eq_nil_of_le (by omega), List.take_nil]

theorem findIndexed_eq_none (p : Note → Bool) (l : List Note) :
    findIndexed p l = none ↔ ∀ n ∈ l, p n = false := by
  induction l with
  | nil => simp [findIndexed]
  | cons m ms ih =>
    by_cases hm : p m
    · simp [findIndexed, hm]
    · simp only [findIndexed, if_neg hm, Option.map_eq_none', ih, List.mem_cons]
      constructor
      · rintro h n (rfl | hn)
        · simpa using hm
        · exact h n hn
      · intro h n hn
        exact h n (Or.inr hn)

theorem findIndexed_some (p : Note → Bool) (l : List Note) (k : Nat) (n : Note)
    (h : findIndexed p l = some (k, n)) : l[k]? = some n ∧ p n = true := by
  induction l generalizing k with
  | nil => simp [findIndexed] at h
  | cons m ms ih =>
    by_cases hm : p m
    · simp only [findIndexed, if_pos hm, Option.some.injEq, Prod.mk.injEq] at h
      obtain ⟨rfl, rfl⟩ := h.symm
      exact ⟨by simp, hm⟩
    · simp only [findIndexed, if_neg hm, Option.map_eq_some'] at h
      obtain ⟨⟨k', n'⟩, hfi, hk⟩ := h
      simp only [Prod.mk.injEq] at hk
      obtain ⟨rfl, rfl⟩ := hk.symm
      obtain ⟨h1, h2⟩ := ih k' hfi
      exact ⟨by simpa using h1, h2⟩

theorem findIndexed_set (p : Note → Bool) (l : List Note) (k : Nat) (n n' : Note)
    (h : findIndexed p l = some (k, n)) (hp : p n' = true) :
    findIndexed p (l.set k n') = some (k, n') := by
  induction l generalizing k with
  | nil => simp [findIndexed] at h
  | cons m ms ih =>
    by_cases hm : p m
    · simp only [findIndexed, if_pos hm, Option.some.injEq, Prod.mk.injEq] at h
      obtain ⟨rfl, rfl⟩ := h.symm
      simp [List.set, findIndexed, hp]
    · simp only [findIndexed, if_neg hm, Option.map_eq_some'] at h
      obtain ⟨⟨k', nn⟩, hfi, hk⟩ := h
      simp only [Prod.mk.injEq] at hk
      obtain ⟨rfl, rfl⟩ := hk.symm
      simp only [List.set, findIndexed, if_neg hm, ih k' hfi]
      rfl

theorem find?_of_findIndexed (p : Note → Bool) (l : List Note) (k : Nat) (n : Note)
    (h : findIndexed p l = some (k, n)) : l.find? p = some n := by
  induction l generalizing k with
  | nil => simp [findIndexed] at h
  | cons m ms ih =>
    by_cases hm : p m
    · simp only [findIndexed, if_pos hm, Option.some.injEq, Prod.mk.injEq] at h
      rw [List.find?_cons_of_pos _ hm, h.2]
    · simp only [findIndexed, if_neg hm, Option.map_eq_some'] at h
      obtain ⟨⟨k', nn⟩, hfi, hk⟩ := h
      simp only [Prod.mk.injEq] at hk
      obtain ⟨rfl, rfl⟩ := hk.symm
      rw [List.find?_cons_of_neg _ hm]
      exact ih k' hfi

theorem findIndexed_isSome_of_mem (p : Note → Bool) (l : List Note) (n : Note)
    (hn : n ∈ l) (hp : p n = true) : ∃ k m, findIndexed p l = some (k, m) := by
  cases hfi : findIndexed p l with
  | none => exact absurd ((findIndexed_eq_none p l).mp hfi n hn) (by simp [hp])
  | some km => exact ⟨km.1, km.2, rfl⟩

/-! ### The claims -/

/-- Claim C10: the read operations `listNotes` and `getNote` never write to
the store: whenever the persisted collection already exists, the store
state after either operation equals the state before it, for all argument
values (including invalid ids and out-of-range pages). -/
theorem C10_reads_never_write (notes : List Note)
    (page limit search includeDeleted : Option String) (i : String) :
    (listNotes (some notes) page limit search includeDeleted).2 = some notes ∧
    (getNote (some notes) i).2 = some notes := by
  refine ⟨rfl, ?_⟩
  cases h : notes.find? (fun n => n.id == i) with
  | none => simp [getNote, readNotesFile, h]
  | some n =>
    by_cases hd : n.deleted <;> simp [getNote, readNotesFile, h, hd]

/-- Claim C5: whenever validation fails, `createNote` and `updateNote`
return the violation list and leave the persisted state completely
unchanged — for `updateNote` even when the id is absent, since validation
runs before the existence check. -/
theorem C5_validation_failure_untouched_store (st : Option (List Note))
    (title content : Option String) (noteId newId now : String)
    (hviol : validateNote title content ≠ []) :
    createNote st title content newId now
        = (.validationFailed (validateNote title content), st) ∧
    updateNote st noteId title content
        = (.validationFailed (validateNote title content), st) := by
  unfold createNote updateNote
  simp [hviol]

/-- Witness for C5: an empty title is rejected by both operations, with
the store untouched; for update the id `"absent-id"` is not in the
collection, yet the result is the validation failure, not NotFound. -/
theorem C5_validation_failure_untouched_store_witness :
    createNote (some [sampleNote "1"]) (some "") (some "x") "id9" "now"
        = (.validationFailed ["Title is required and must be a non-empty string"],
           some [sampleNote "1"]) ∧
    updateNote (some [sampleNote "1"]) "absent-id" (some "") (some "x")
        = (.validationFailed ["Title is required and must be a non-empty string"],
           some [sampleNote "1"]) := by
  have e : validateNote (some "") (some "x")
      = ["Title is required and must be a non-empty string"] := rfl
  have h := C5_validation_failure_untouched_store (some [sampleNote "1"])
    (some "") (some "x") "absent-id" "id9" "now" (by decide)
  rw [e] at h
  exact h

/-- Claim C2 (as stated) is false on the code: the validator uses the
PRE-trim length, so a title whose trimmed length is at most 100 can still
be rejected as too long.  Concretely, `"a"` followed by 100 spaces has
pre-trim length 101 (violation reported) but trimmed length 1. -/
theorem C2_counterexample :
    "Title must be 100 characters or less"
        ∈ validateNote (some ("a".pushn ' ' 100)) (some "content") ∧
      (jsTrim ("a".pushn ' ' 100)).length ≤ 100 := by
  decide

/-- Claim C2 (amended): the "title too long" violation is reported exactly
when the title's trimmed value is non-empty (so the required-title check
does not fire first) and its PRE-trim length exceeds 100. -/
theorem C2_title_too_long_uses_pre_trim_length (t : String) (content : Option String) :
    ("Title must be 100 characters or less" ∈ validateNote (some t) content ↔
      jsTrim t ≠ "" ∧ 100 < t.length) := by
  have hmsg1 : "Title must be 100 characters or less"
      ≠ "Title is required and must be a non-empty string" := by decide
  have hmsg2 : "Title must be 100 characters or less"
      ≠ "Content is required and must be a non-empty string" := by decide
  have hcontent : "Title must be 100 characters or less" ∉
      (match content with
        | none => ["Content is required and must be a non-empty string"]
        | some c =>
          if c = "" ∨ jsTrim c = "" then
            ["Content is required and must be a non-empty string"]
          else []) := by
    cases content with
    | none => simp [hmsg2]
    | some c =>
      by_cases hc : c = "" ∨ jsTrim c = "" <;> simp [hc, hmsg2]
  unfold validateNote
  by_cases h1 : t = "" ∨ jsTrim t = ""
  · have h1' : jsTrim t = "" := by
      rcases h1 with rfl | h
      · rfl
      · exact h
    simp [h1, h1', hmsg1, hcontent]
  · have h0 : t ≠ "" := fun h => h1 (Or.inl h)
    have h2 : jsTrim t ≠ "" := fun h => h1 (Or.inr h)
    by_cases h3 : 100 < t.length
    · simp [h1, h0, h3, h2, hcontent]
    · simp [h1, h0, h3, h2, hcontent]

/-- Claim C9: for a non-empty search term, the search filter keeps exactly
the records whose lowercased title or lowercased content contains the
lowercased term as a contiguous substring (so matching is
case-insensitive). -/
theorem C9_search_case_insensitive_substring (notes : List Note) (s : String)
    (hs : s ≠ "") (n : Note) :
    n ∈ searchFilter (some s) notes ↔
      n ∈ notes ∧
        ((∃ p q, (jsToLower n.title).data = p ++ (jsToLower s).data ++ q) ∨
         (∃ p q, (jsToLower n.content).data = p ++ (jsToLower s).data ++ q)) := by
  simp only [searchFilter, if_neg hs, List.mem_filter, Bool.or_eq_true, jsIncludes,
    containsSub_iff]

/-- Witness for C9: the note titled "Project Plan" is kept both for the
search term `"project"` and for `"PLAN"`. -/
theorem C9_search_case_insensitive_substring_witness :
    projectPlanNote ∈ searchFilter (some "project") [projectPlanNote] ∧
    projectPlanNote ∈ searchFilter (some "PLAN") [projectPlanNote] :=
  ⟨(C9_search_case_insensitive_substring [projectPlanNote] "project"
      (by decide) projectPlanNote).mpr
      ⟨by simp, Or.inl ⟨[], " plan".data, by decide⟩⟩,
   (C9_search_case_insensitive_substring [projectPlanNote] "PLAN"
      (by decide) projectPlanNote).mpr
      ⟨by simp, Or.inl ⟨"project ".data, [], by decide⟩⟩⟩

/-- Claim C1: for positive integer `page` and `limit`, `listNotes` drops
deleted records (unless `includeDeleted` is the string "true"), then
applies the search filter, reports `total` as the count after both
filters, returns as `items` the slice
`[(page-1)*limit, (page-1)*limit + limit)` of the filtered sequence
(i.e. drop `(page-1)*limit` then take `limit`), reports
`totalPages = ceil(total/limit)` (0 when total = 0), and an out-of-range
page yields empty `items` with the same metadata and never an error. -/
theorem C1_list_filter_paginate (notes : List Note)
    (search includeDeleted : Option String) (ps ls : String) (page limit : Nat)
    (hp : jsParseInt ps = some ((page : Nat) : Int))
    (hl : jsParseInt ls = some ((limit : Nat) : Int))
    (hpage : 1 ≤ page) (hlimit : 1 ≤ limit) :
    (listNotesCore notes (some ps) (some ls) search includeDeleted).items
      = ((searchFilter search (visibleFilter includeDeleted notes)).drop
          ((page - 1) * limit)).take limit ∧
    (listNotesCore notes (some ps) (some ls) search includeDeleted).total
      = (searchFilter search (visibleFilter includeDeleted notes)).length ∧
    (listNotesCore notes (some ps) (some ls) search includeDeleted).totalPages
      = some (((((searchFilter search (visibleFilter includeDeleted notes)).length
          + limit - 1) / limit : Nat) : Int)) ∧
    ((searchFilter search (visibleFilter includeDeleted notes)).length = 0 →
      (listNotesCore notes (some ps) (some ls) search includeDeleted).totalPages
        = some ((0 : Nat) : Int)) ∧
    ((searchFilter search (visibleFilter includeDeleted notes)).length ≤ (page - 1) * limit →
      (listNotesCore notes (some ps) (some ls) search includeDeleted).items = []) := by
  have hstart : jsMul (jsSub (some ((page : Nat) : Int)) (some 1)) (some ((limit : Nat) : Int))
      = some ((((page - 1) * limit : Nat)) : Int) := by
    simp only [jsSub, jsMul, Option.some.injEq]
    rw [Nat.cast_mul, Nat.cast_sub hpage, Nat.cast_one]
  have hcore : listNotesCore notes (some ps) (some ls) search includeDeleted =
      { items := ((searchFilter search (visibleFilter includeDeleted notes)).drop
          ((page - 1) * limit)).take limit
        page := some ((page : Nat) : Int)
        limit := some ((limit : Nat) : Int)
        total := (searchFilter search (visibleFilter includeDeleted notes)).length
        totalPages := some (((((searchFilter search (visibleFilter includeDeleted notes)).length
          + limit - 1) / limit : Nat) : Int)) } := by
    simp only [listNotesCore]
    rw [show parseParam (some ps) 1 = some ((page : Nat) : Int) from hp,
        show parseParam (some ls) 10 = some ((limit : Nat) : Int) from hl, hstart]
    have hend : jsAdd (some ((((page - 1) * limit : Nat)) : Int)) (some ((limit : Nat) : Int))
        = some (((((page - 1) * limit : Nat)) : Int) + ((limit : Nat) : Int)) := rfl
    rw [hend, jsSlice_nat]
    have hceil : jsCeilDiv (searchFilter search (visibleFilter includeDeleted notes)).length
        (some ((limit : Nat) : Int))
        = some (((((searchFilter search (visibleFilter includeDeleted notes)).length
            + limit - 1) / limit : Nat) : Int)) := by
      simp only [jsCeilDiv]
      rw [if_pos (by exact_mod_cast hlimit), Int.toNat_ofNat]
    rw [hceil]
  refine ⟨by rw [hcore], by rw [hcore], by rw [hcore], ?_, ?_⟩
  · intro h0
    rw [hcore]
    simp only [h0]
    have hz : (0 + limit - 1) / limit = 0 := Nat.div_eq_of_lt (by omega)
    rw [hz]
  · intro hle
    rw [hcore]
    simp only [List.drop_eq_nil_of_le hle, List.take_nil]

/-- Witness for C1, the spec's own example: 7 visible notes with limit 3
give 3 items and totalPages 3 on page 1, 1 item on page 3, and 0 items on
page 4. -/
theorem C1_list_filter_paginate_witness :
    (listNotesCore sample7 (some "1") (some "3") none none).items.length = 3 ∧
    (listNotesCore sample7 (some "1") (some "3") none none).totalPages = some 3 ∧
    (listNotesCore sample7 (some "3") (some "3") none none).items.length = 1 ∧
    (listNotesCore sample7 (some "4") (some "3") none none).items = [] := by
  have h1 := C1_list_filter_paginate sample7 none none "1" "3" 1 3
    (by decide) (by decide) (by decide) (by decide)
  have h3 := C1_list_filter_paginate sample7 none none "3" "3" 3 3
    (by decide) (by decide) (by decide) (by decide)
  have h4 := C1_list_filter_paginate sample7 none none "4" "3" 4 3
    (by decide) (by decide) (by decide) (by decide)
  refine ⟨?_, ?_, ?_, ?_⟩
  · rw [h1.1]; decide
  · rw [h1.2.2.1]; decide
  · rw [h3.1]; decide
  · exact h4.2.2.2.2 (by decide)

/-- Claim C3 (as stated) is false on the code: a non-numeric `page` such
as "abc" does not fall back to the default `page=1`; `parseInt` yields
`NaN`, the slice degenerates, and the items differ from the
page=1/limit=10 result on a one-note collection. -/
theorem C3_counterexample :
    (listNotesCore [sampleNote "1"] (some "abc") none none none).items
      ≠ (listNotesCore [sampleNote "1"] (some "1") (some "10") none none).items := by
  decide

/-- Claim C3 (amended): absent `page`/`limit` behave exactly as
page=1/limit=10; but a non-numeric (NaN-parsing) value does not fall back
to the defaults: the slice degenerates to `[0,0)` so `items` is empty,
and a NaN `limit` makes `totalPages` NaN (modelled as `none`), while
`total` still reports the filtered count. -/
theorem C3_absent_defaults_nan_degenerates (notes : List Note)
    (search includeDeleted : Option String) (ps ls : String)
    (hp : jsParseInt ps = none) (hl : jsParseInt ls = none) :
    listNotesCore notes none none search includeDeleted
      = listNotesCore notes (some "1") (some "10") search includeDeleted ∧
    (listNotesCore notes (some ps) none search includeDeleted).items = [] ∧
    (listNotesCore notes none (some ls) search includeDeleted).items = [] ∧
    (listNotesCore notes none (some ls) search includeDeleted).totalPages = none ∧
    (listNotesCore notes (some ps) none search includeDeleted).total
      = (searchFilter search (visibleFilter includeDeleted notes)).length := by
  refine ⟨rfl, ?_, ?_, ?_, rfl⟩
  · simp [listNotesCore, parseParam, hp, jsMul, jsSub, jsAdd, jsSlice,
      jsToIntOrZero, jsSliceBound]
  · simp [listNotesCore, parseParam, hl, jsMul, jsSub, jsAdd, jsSlice,
      jsToIntOrZero, jsSliceBound]
  · simp [listNotesCore, parseParam, hl, jsCeilDiv]

/-- Witness for C3 (amended) at a one-note collection with the
non-numeric parameters "abc" and "xyz". -/
theorem C3_absent_defaults_nan_degenerates_witness :
    listNotesCore [sampleNote "1"] none none none none
      = listNotesCore [sampleNote "1"] (some "1") (some "10") none none ∧
    (listNotesCore [sampleNote "1"] (some "abc") none none none).items = [] ∧
    (listNotesCore [sampleNote "1"] none (some "xyz") none none).items = [] ∧
    (listNotesCore [sampleNote "1"] none (some "xyz") none none).totalPages = none ∧
    (listNotesCore [sampleNote "1"] (some "abc") none none none).total
      = (searchFilter none (visibleFilter none [sampleNote "1"])).length :=
  C3_absent_defaults_nan_degenerates [sampleNote "1"] none none "abc" "xyz"
    (by decide) (by decide)

/-- Claim C6: creating a valid note and then getting its id returns a note
whose title and content are the trimmed inputs, whose `deleted` flag is
false, and whose `createdAt` is the timestamp assigned at creation (the
generated id is assumed fresh, as `uuidv4` guarantees). -/
theorem C6_create_get_roundtrip (st : Option (List Note)) (t c newId now : String)
    (hvalid : validateNote (some t) (some c) = [])
    (hfresh : ∀ n ∈ (readNotesFile st).1, n.id ≠ newId) :
    createNote st (some t) (some c) newId now
      = (.created { id := newId, title := jsTrim t, content := jsTrim c,
                    createdAt := now, deleted := false },
         some ((readNotesFile st).1
           ++ [{ id := newId, title := jsTrim t, content := jsTrim c,
                 createdAt := now, deleted := false }])) ∧
    (getNote (createNote st (some t) (some c) newId now).2 newId).1
      = .found { id := newId, title := jsTrim t, content := jsTrim c,
                 createdAt := now, deleted := false } := by
  have hcreate : createNote st (some t) (some c) newId now
      = (.created { id := newId, title := jsTrim t, content := jsTrim c,
                    createdAt := now, deleted := false },
         some ((readNotesFile st).1
           ++ [{ id := newId, title := jsTrim t, content := jsTrim c,
                 createdAt := now, deleted := false }])) := by
    simp [createNote, hvalid, writeNotesFile]
  refine ⟨hcreate, ?_⟩
  rw [hcreate]
  have hnone : ∀ l0 : List Note, (∀ n ∈ l0, n.id ≠ newId) →
      l0.find? (fun n => n.id == newId) = none := fun l0 h =>
    List.find?_eq_none.mpr (fun x hx => by simp [h x hx])
  generalize hg : (readNotesFile st).1 = l0 at hfresh ⊢
  simp [getNote, readNotesFile, List.find?_append, hnone l0 hfresh, List.find?]

/-- Witness for C6 on the empty store with title `" Project Plan "` and
content `" Define MVP "` (note the padding that gets trimmed). -/
theorem C6_create_get_roundtrip_witness :
    createNote (some []) (some " Project Plan ") (some " Define MVP ") "id1" "2025-06-27"
      = (.created { id := "id1", title := jsTrim " Project Plan ",
                    content := jsTrim " Define MVP ",
                    createdAt := "2025-06-27", deleted := false },
         some ((readNotesFile (some [])).1
           ++ [{ id := "id1", title := jsTrim " Project Plan ",
                 content := jsTrim " Define MVP ",
                 createdAt := "2025-06-27", deleted := false }])) ∧
    (getNote (createNote (some []) (some " Project Plan ") (some " Define MVP ")
        "id1" "2025-06-27").2 "id1").1
      = .found { id := "id1", title := jsTrim " Project Plan ",
                 content := jsTrim " Define MVP ",
                 createdAt := "2025-06-27", deleted := false } :=
  C6_create_get_roundtrip (some []) " Project Plan " " Define MVP " "id1" "2025-06-27"
    (by decide) (by decide)

/-- Claim C7: updating a visible note with valid fields overwrites only
its title and content (trimmed), preserves its id, createdAt and deleted
flag, leaves every other note unchanged (position by position) and
preserves the collection's length/order. -/
theorem C7_update_in_place (notes : List Note) (i t c : String)
    (hnodup : (notes.map Note.id).Nodup)
    (hvalid : validateNote (some t) (some c) = [])
    (hvis : ∃ n ∈ notes, n.id = i ∧ n.deleted = false) :
    ∃ k old,
      notes[k]? = some old ∧ old.id = i ∧ old.deleted = false ∧
      updateNote (some notes) i (some t) (some c)
        = (.updated { old with title := jsTrim t, content := jsTrim c },
           some (notes.set k { old with title := jsTrim t, content := jsTrim c })) ∧
      ({ old with title := jsTrim t, content := jsTrim c } : Note).id = old.id ∧
      ({ old with title := jsTrim t, content := jsTrim c } : Note).createdAt = old.createdAt ∧
      ({ old with title := jsTrim t, content := jsTrim c } : Note).deleted = old.deleted ∧
      (notes.set k { old with title := jsTrim t, content := jsTrim c }).length
        = notes.length ∧
      (notes.set k { old with title := jsTrim t, content := jsTrim c })[k]?
        = some { old with title := jsTrim t, content := jsTrim c } ∧
      (∀ j, j ≠ k →
        (notes.set k { old with title := jsTrim t, content := jsTrim c })[j]?
          = notes[j]?) := by
  obtain ⟨n, hn, hni, hnd⟩ := hvis
  obtain ⟨k, old, hfi⟩ :=
    findIndexed_isSome_of_mem (fun m => m.id == i) notes n hn (by simp [hni])
  obtain ⟨hget, hp⟩ := findIndexed_some _ _ _ _ hfi
  have hoi : old.id = i := by simpa using hp
  have hmem : old ∈ notes := mem_of_getElem?_eq _ _ _ hget
  have hon : old = n := List.inj_on_of_nodup_map hnodup hmem hn (by rw [hoi, hni])
  have hod : old.deleted = false := by rw [hon]; exact hnd
  have hklt : k < notes.length := (List.getElem?_eq_some.mp hget).1
  refine ⟨k, old, hget, hoi, hod, ?_, rfl, rfl, rfl, List.length_set .., ?_, ?_⟩
  · simp [updateNote, hvalid, readNotesFile, hfi, hod, writeNotesFile]
  · exact List.getElem?_set_self (by simpa using hklt)
  · intro j hj
    exact List.getElem?_set_ne (fun h => hj h.symm)

/-- Witness for C7 on a two-note collection, updating the first note. -/
theorem C7_update_in_place_witness :
    ∃ k old,
      ([sampleNote "1", sampleNote "2"] : List Note)[k]? = some old ∧
      old.id = "1" ∧ old.deleted = false ∧
      updateNote (some [sampleNote "1", sampleNote "2"]) "1" (some " T ") (some " C ")
        = (.updated { old with title := jsTrim " T ", content := jsTrim " C " },
           some ([sampleNote "1", sampleNote "2"].set k
             { old with title := jsTrim " T ", content := jsTrim " C " })) ∧
      ({ old with title := jsTrim " T ", content := jsTrim " C " } : Note).id = old.id ∧
      ({ old with title := jsTrim " T ", content := jsTrim " C " } : Note).createdAt
        = old.createdAt ∧
      ({ old with title := jsTrim " T ", content := jsTrim " C " } : Note).deleted
        = old.deleted ∧
      ([sampleNote "1", sampleNote "2"].set k
        { old with title := jsTrim " T ", content := jsTrim " C " }).length
        = ([sampleNote "1", sampleNote "2"] : List Note).length ∧
      ([sampleNote "1", sampleNote "2"].set k
        { old with title := jsTrim " T ", content := jsTrim " C " })[k]?
        = some { old with title := jsTrim " T ", content := jsTrim " C " } ∧
      (∀ j, j ≠ k →
        ([sampleNote "1", sampleNote "2"].set k
          { old with title := jsTrim " T ", content := jsTrim " C " })[j]?
          = ([sampleNote "1", sampleNote "2"] : List Note)[j]?) :=
  C7_update_in_place [sampleNote "1", sampleNote "2"] "1" " T " " C "
    (by decide) (by decide) (by decide)

/-- Claim C8: `deleteNote` returns NotFound (leaving the collection as
read) whenever every record with the requested id is already soft-deleted
or no record has that id; and after a successful delete, a second delete
of the same id returns NotFound and leaves the store unchanged. -/
theorem C8_delete_rejects_absent_or_deleted (notes : List Note) (i : String) :
    ((∀ n ∈ notes, n.id = i → n.deleted = true) →
      deleteNote (some notes) i = (.notFound, some notes)) ∧
    ((deleteNote (some notes) i).1 = .success →
      deleteNote ((deleteNote (some notes) i).2) i
        = (.notFound, (deleteNote (some notes) i).2)) := by
  constructor
  · intro h
    cases hfi : findIndexed (fun n => n.id == i) notes with
    | none => simp [deleteNote, readNotesFile, hfi]
    | some kn =>
      obtain ⟨k, old⟩ := kn
      obtain ⟨hget, hp⟩ := findIndexed_some _ _ _ _ hfi
      have hdel : old.deleted = true :=
        h old (mem_of_getElem?_eq _ _ _ hget) (by simpa using hp)
      simp [deleteNote, readNotesFile, hfi, hdel]
  · intro hsucc
    cases hfi : findIndexed (fun n => n.id == i) notes with
    | none => simp [deleteNote, readNotesFile, hfi] at hsucc
    | some kn =>
      obtain ⟨k, old⟩ := kn
      by_cases hdel : old.deleted
      · simp [deleteNote, readNotesFile, hfi, hdel] at hsucc
      · obtain ⟨hget, hp⟩ := findIndexed_some _ _ _ _ hfi
        have hres : deleteNote (some notes) i
            = (.success, some (notes.set k { old with deleted := true })) := by
          simp [deleteNote, readNotesFile, hfi, hdel, writeNotesFile]
        rw [hres]
        have hfi2 : findIndexed (fun n => n.id == i)
            (notes.set k { old with deleted := true })
            = some (k, { old with deleted := true }) :=
          findIndexed_set _ _ _ _ _ hfi (by simpa using hp)
        simp [deleteNote, readNotesFile, hfi2]

/-- Witness for C8: deleting an already-deleted note returns NotFound with
the collection unchanged, and double-deleting a visible note makes the
second call return NotFound without changing the store again. -/
theorem C8_delete_rejects_absent_or_deleted_witness :
    deleteNote (some [{ sampleNote "1" with deleted := true }]) "1"
      = (.notFound, some [{ sampleNote "1" with deleted := true }]) ∧
    deleteNote ((deleteNote (some [sampleNote "1"]) "1").2) "1"
      = (.notFound, (deleteNote (some [sampleNote "1"]) "1").2) :=
  ⟨(C8_delete_rejects_absent_or_deleted [{ sampleNote "1" with deleted := true }] "1").1
      (by decide),
   (C8_delete_rejects_absent_or_deleted [sampleNote "1"] "1").2 (by decide)⟩

/-- Claim C4: after `deleteNote i` succeeds on a collection with unique
ids, `getNote i` returns NotFound, the default `listNotes` excludes the
note from its items, and `listNotes` with `includeDeleted="true"` (and a
limit covering the collection) includes it with `deleted = true`. -/
theorem C4_soft_delete_invisibility (notes : List Note) (i ls : String) (L : Int)
    (hnodup : (notes.map Note.id).Nodup)
    (hsucc : (deleteNote (some notes) i).1 = .success)
    (hL : jsParseInt ls = some L)
    (hLlen : (notes.length : Int) ≤ L) :
    (getNote (deleteNote (some notes) i).2 i).1 = .notFound ∧
    (∀ m ∈ (listNotes (deleteNote (some notes) i).2 none none none none).1.items,
      m.id ≠ i) ∧
    (∃ m ∈ (listNotes (deleteNote (some notes) i).2 none (some ls) none
        (some "true")).1.items, m.id = i ∧ m.deleted = true) := by
  obtain ⟨k, old, hfi⟩ : ∃ k old, findIndexed (fun n => n.id == i) notes = some (k, old) := by
    cases hfi : findIndexed (fun n => n.id == i) notes with
    | none => simp [deleteNote, readNotesFile, hfi] at hsucc
    | some kn =>
      obtain ⟨k, old⟩ := kn
      exact ⟨k, old, rfl⟩
  obtain ⟨hget, hp⟩ := findIndexed_some _ _ _ _ hfi
  have hoi : old.id = i := by simpa using hp
  have hod : old.deleted = false := by
    by_cases h : old.deleted
    · simp [deleteNote, readNotesFile, hfi, h] at hsucc
    · simpa using h
  have hklt : k < notes.length := (List.getElem?_eq_some.mp hget).1
  obtain ⟨old2, hold2⟩ : ∃ m : Note, m = { old with deleted := true } := ⟨_, rfl⟩
  obtain ⟨notes2, hnotes2⟩ : ∃ l : List Note, l = notes.set k old2 := ⟨_, rfl⟩
  have ho2id : old2.id = i := by rw [hold2]; exact hoi
  have ho2del : old2.deleted = true := by rw [hold2]
  have hres : deleteNote (some notes) i = (.success, some notes2) := by
    rw [hnotes2, hold2]
    simp [deleteNote, readNotesFile, hfi, hod, writeNotesFile]
  have hfi2 : findIndexed (fun n => n.id == i) notes2 = some (k, old2) := by
    rw [hnotes2]
    exact findIndexed_set _ _ _ _ _ hfi (by simp [ho2id])
  have hlen2 : notes2.length = notes.length := by
    rw [hnotes2]; exact List.length_set ..
  have hmem2 : old2 ∈ notes2 :=
    mem_of_getElem?_eq _ _ _ (by rw [hnotes2]; exact List.getElem?_set_self hklt)
  -- (a) lookup now fails
  have ha : (getNote (some notes2) i).1 = .notFound := by
    have hfind2 : notes2.find? (fun n => n.id == i) = some old2 :=
      find?_of_findIndexed _ _ _ _ hfi2
    simp [getNote, readNotesFile, hfind2, ho2del]
  -- ids are still unique after the in-place update
  have hmapeq : notes2.map Note.id = notes.map Note.id := by
    rw [hnotes2, List.map_set]
    apply List.ext_getElem?
    intro j
    by_cases hj : j = k
    · subst hj
      rw [List.getElem?_set_self (by simpa using hklt), List.getElem?_map, hget]
      simp only [Option.map_some']
      rw [hold2]
    · rw [List.getElem?_set_ne (fun h => hj h.symm)]
  have hnodup2 : (notes2.map Note.id).Nodup := by rw [hmapeq]; exact hnodup
  -- any page of any listing is contained in the filtered sequence
  have hsub : ∀ (l : List Note) (a b c d : Option String) m,
      m ∈ (listNotesCore l a b c d).items → m ∈ searchFilter c (visibleFilter d l) := by
    intro l a b c d m hm
    simp only [listNotesCore, jsSlice] at hm
    exact List.mem_of_mem_take (List.mem_of_mem_drop hm)
  -- (b) the default listing excludes the deleted id
  have hb : ∀ m ∈ (listNotesCore notes2 none none none none).items, m.id ≠ i := by
    intro m hm hmi
    have hm2 := hsub notes2 none none none none m hm
    have hvf : visibleFilter none notes2 = notes2.filter (fun n => !n.deleted) := by
      simp only [visibleFilter]
      rw [if_pos (by decide)]
    rw [show searchFilter none (visibleFilter none notes2)
        = visibleFilter none notes2 from rfl, hvf] at hm2
    obtain ⟨hmel, hmd⟩ := List.mem_filter.mp hm2
    have hmo : m = old2 :=
      List.inj_on_of_nodup_map hnodup2 hmel hmem2 (by rw [hmi, ho2id])
    rw [hmo, ho2del] at hmd
    simp at hmd
  -- (c) the includeDeleted listing contains the whole collection
  have hc : (listNotesCore notes2 none (some ls) none (some "true")).items = notes2 := by
    simp only [listNotesCore]
    rw [show parseParam (some ls) 10 = some L from hL,
        show parseParam none 1 = some 1 from rfl,
        show visibleFilter (some "true") notes2 = notes2 from by
          simp only [visibleFilter]; rw [if_neg (by decide)],
        show jsMul (jsSub (some 1) (some 1)) (some L) = some 0 from by
          simp [jsMul, jsSub],
        show jsAdd (some 0) (some L) = some L from by simp [jsAdd]]
    show jsSlice (searchFilter none notes2) (some 0) (some L) = notes2
    simp only [jsSlice, jsToIntOrZero, jsSliceBound, searchFilter]
    rw [if_neg (by omega : ¬ ((0 : Int) < 0)), if_neg (by omega : ¬ (L < 0))]
    have h0 : min (0 : Int).toNat notes2.length = 0 := by simp
    have hLmin : min L.toNat notes2.length = notes2.length :=
      min_eq_right (by rw [hlen2]; omega)
    rw [h0, hLmin, List.take_length, List.drop_zero]
  rw [hres]
  exact ⟨ha, hb, ⟨old2, by rw [show (listNotes (some notes2) none (some ls) none
      (some "true")).1.items = (listNotesCore notes2 none (some ls) none
      (some "true")).items from rfl, hc]; exact hmem2, ho2id, ho2del⟩⟩

/-- Witness for C4: deleting the only note of a one-note collection. -/
theorem C4_soft_delete_invisibility_witness :
    (getNote (deleteNote (some [sampleNote "1"]) "1").2 "1").1 = .notFound ∧
    (∀ m ∈ (listNotes (deleteNote (some [sampleNote "1"]) "1").2
        none none none none).1.items, m.id ≠ "1") ∧
    (∃ m ∈ (listNotes (deleteNote (some [sampleNote "1"]) "1").2 none (some "1") none
        (some "true")).1.items, m.id = "1" ∧ m.deleted = true) :=
  C4_soft_delete_invisibility [sampleNote "1"] "1" "1" 1
    (by decide) (by decide) (by decide) (by decide)

end NotesApi
